import Mathlib

/-!
Verification development for `gpu-count.py`.

The program authenticates against an OAuth2 token endpoint (`login`),
fetches a job list (`get_job_information`), aggregates per-user GPU
usage (`consolidate_jobs`), and writes a CSV and an HTML report.

Shallow embedding conventions:
* Python floats are modelled as exact rationals (`ℚ`); `round(x, 2)`
  is modelled as round-half-to-even of the exact value at two decimal
  places.
* JSON values that can occur in the `totalRequestedGPUs` field are
  modelled by `JVal`: strings, numbers, booleans, `null`, and (with
  their contents abstracted away, since `float()` only inspects the
  type) arrays and objects.
* Python's builtin `float(·)` is modelled by `pyFloat`: on numbers and
  booleans it succeeds, on strings it parses an optional sign, digits
  with an optional decimal point, and an optional exponent (the exotic
  literals `inf`/`nan` and digit-group underscores are treated as
  unparseable here), on `null`/arrays/objects it raises `TypeError`.
  `float` of an unparseable string raises `ValueError`.
* Exceptions are modelled with `Except PyErr`; `consolidate_jobs`
  catches only `ValueError` (coercing to `0.0` after printing a
  warning), exactly as the `try/except ValueError` in the source, so a
  `TypeError` propagates out of it.
* The process-level control flow of `main` is modelled by `mainRun`,
  a pure function of the two HTTP responses (token endpoint and jobs
  endpoint).  Printed diagnostics are collected in `Outcome.output`
  (file-path messages, whose text embeds a timestamp, are abstracted
  into the `csvWritten`/`htmlWritten` flags), `exit(1)` and an uncaught
  exception both yield exit code 1, falling off the end of `main`
  yields exit code 0.
-/

deriving instance DecidableEq for Except

set_option allowUnsafeReducibility true in
attribute [semireducible] Rat.add Rat.mul Rat.inv Rat.sub Rat.neg Rat.div Rat.ofScientific

namespace GpuCount

/-- A JSON value as it may appear in a job's `totalRequestedGPUs` field.
Array and object contents are abstracted away: Python's `float()` only
looks at the argument's type for those. -/
inductive JVal where
  | jstr (s : String)
  | jnum (q : ℚ)
  | jbool (b : Bool)
  | jnull
  | jarr
  | jobj
deriving DecidableEq

/-- The two Python exception kinds `float(·)` can raise. -/
inductive PyErr where
  | valueError
  | typeError
deriving DecidableEq

/-- ASCII decimal digit test. -/
def isDigitCh (c : Char) : Bool := '0' ≤ c && c ≤ '9'

/-- Python `str.strip` whitespace test (ASCII whitespace). -/
def isSpaceCh (c : Char) : Bool :=
  c = ' ' || c = '\t' || c = '\n' || c = '\r' || c = '\x0b' || c = '\x0c'

/-- Strip whitespace from both ends, as `float()` does to its string
argument. -/
def pyStrip (cs : List Char) : List Char :=
  ((cs.dropWhile isSpaceCh).reverse.dropWhile isSpaceCh).reverse

/-- Value of a digit string, most significant first. -/
def digitsToNat (cs : List Char) : ℕ :=
  cs.foldl (fun n c => 10 * n + (c.toNat - 48)) 0

/-- Apply an exponent of the given sign to a mantissa, requiring a
nonempty all-digit exponent. -/
def applyExp (m : ℚ) (pos : Bool) (cs : List Char) : Option ℚ :=
  if cs.isEmpty then none
  else if cs.all isDigitCh then
    some (if pos then m * 10 ^ digitsToNat cs else m / 10 ^ digitsToNat cs)
  else none

/-- Parse the optional exponent part (`e`/`E`, optional sign, digits)
after a mantissa; the remaining input must be consumed entirely. -/
def parseExpTail (m : ℚ) : List Char → Option ℚ
  | [] => some m
  | c :: rest =>
    if c = 'e' || c = 'E' then
      match rest with
      | '+' :: rest2 => applyExp m true rest2
      | '-' :: rest2 => applyExp m false rest2
      | rest2 => applyExp m true rest2
    else none

/-- Parse an unsigned float literal: digits with an optional decimal
point (at least one digit overall) and an optional exponent. -/
def parseMantissa (cs : List Char) : Option ℚ :=
  let p := cs.span isDigitCh
  match p.2 with
  | '.' :: rest2 =>
    let q := rest2.span isDigitCh
    if p.1.isEmpty && q.1.isEmpty then none
    else parseExpTail ((digitsToNat p.1 : ℚ) + (digitsToNat q.1 : ℚ) / 10 ^ q.1.length) q.2
  | _ =>
    if p.1.isEmpty then none
    else parseExpTail (digitsToNat p.1 : ℚ) p.2

/-- Model of Python `float(s)` for a string argument: `some q` when the
string parses as a (finite) float literal, `none` when `float` would
raise `ValueError`. -/
def pyParseFloat (s : String) : Option ℚ :=
  match pyStrip s.toList with
  | '+' :: rest => parseMantissa rest
  | '-' :: rest => (parseMantissa rest).map (fun q => -q)
  | cs => parseMantissa cs

/-- Model of Python's builtin `float(v)` on a JSON value. -/
def pyFloat : JVal → Except PyErr ℚ
  | .jnum q => .ok q
  | .jbool b => .ok (if b then 1 else 0)
  | .jstr s =>
    match pyParseFloat s with
    | some q => .ok q
    | none => .error .valueError
  | .jnull => .error .typeError
  | .jarr => .error .typeError
  | .jobj => .error .typeError

/-- The `try: gpus = float(gpus) except ValueError: gpus = 0.0` block
of `consolidate_jobs`: `ValueError` is caught (a warning is printed and
the value becomes `0.0`); any other exception propagates. -/
def parseGpus (v : JVal) : Except PyErr ℚ :=
  match pyFloat v with
  | .ok q => .ok q
  | .error .valueError => .ok 0
  | .error e => .error e

/-- A raw job record, restricted to the two fields `consolidate_jobs`
reads: `user` (a string, possibly absent) and `totalRequestedGPUs`
(any JSON value, possibly absent). -/
structure Job where
  user : Option String
  totalRequestedGPUs : Option JVal
deriving DecidableEq

/-- `job.get('user', 'Unknown')`. -/
def userOf (j : Job) : String := j.user.getD "Unknown"

/-- `job.get('totalRequestedGPUs', '0')` — the default is the string `'0'`. -/
def gpuField (j : Job) : JVal := j.totalRequestedGPUs.getD (.jstr "0")

/-- Round-half-to-even to the nearest integer, as Python's builtin
`round` does. -/
def rndHalfEven (q : ℚ) : ℤ :=
  if q - ⌊q⌋ < 1 / 2 then ⌊q⌋
  else if 1 / 2 < q - ⌊q⌋ then ⌊q⌋ + 1
  else if ⌊q⌋ % 2 = 0 then ⌊q⌋ else ⌊q⌋ + 1

/-- `round(x, 2)` on the exact rational value. -/
def round2 (q : ℚ) : ℚ := (rndHalfEven (100 * q) : ℚ) / 100

/-- One output row of `consolidate_jobs`:
`{'user': …, 'totalRequestedGPUs': …, 'jobCount': …}`. -/
structure Row where
  user : String
  totalRequestedGPUs : ℚ
  jobCount : ℕ
deriving DecidableEq

/-- The accumulator `user_jobs`: an insertion-ordered map from user to
(GPU sum, job count), as a Python `defaultdict` (dicts preserve
insertion order). -/
abbrev Acc := List (String × ℚ × ℕ)

/-- One `user_jobs[user]['totalRequestedGPUs'] += gpus;
user_jobs[user]['jobCount'] += 1` update: the first entry with the key
is updated in place, a missing key is appended at the end with the
defaultdict default `(0.0, 0)` already incremented. -/
def updateAcc : Acc → String → ℚ → Acc
  | [], u, g => [(u, g, 1)]
  | e :: rest, u, g =>
    if e.1 = u then (e.1, e.2.1 + g, e.2.2 + 1) :: rest
    else e :: updateAcc rest u g

/-- The loop of `consolidate_jobs` over the job list, threading the
`user_jobs` accumulator; an uncaught exception aborts the whole call. -/
def consolidateAux (acc : Acc) : List Job → Except PyErr Acc
  | [] => .ok acc
  | j :: rest =>
    match parseGpus (gpuField j) with
    | .error e => .error e
    | .ok g => consolidateAux (updateAcc acc (userOf j) g) rest

/-- Final list comprehension of `consolidate_jobs`: one row per
accumulator entry, GPU sum rounded to 2 decimals. -/
def toRow (e : String × ℚ × ℕ) : Row :=
  ⟨e.1, round2 e.2.1, e.2.2⟩

/-- `consolidate_jobs(jobs)`: group jobs by user, summing parsed GPU
values and counting jobs, then emit rows in first-seen user order.
`Except.error` models an uncaught exception escaping the function. -/
def consolidate_jobs (jobs : List Job) : Except PyErr (List Row) :=
  (consolidateAux [] jobs).map (fun acc => acc.map toRow)

/-! ### Specification helpers for the aggregation

These are proof devices, not translations of source code: they give a
closed form (per-user total, per-user count, first-seen user order) that
the theorems below relate to `consolidate_jobs`. -/

/-- `float(·)` succeeds on this JSON value's type (number, boolean, or
string — for strings a `ValueError` is caught by `consolidate_jobs`). -/
def floatable : JVal → Bool
  | .jnull => false
  | .jarr => false
  | .jobj => false
  | _ => true

/-- Boolean test that a job belongs to user `u`. -/
def sameUser (u : String) (j : Job) : Bool := userOf j == u

/-- The GPU amount a job contributes to its user's sum (`0` for the
impossible error case, which only arises when `consolidate_jobs` as a
whole raises). -/
def contribOf (j : Job) : ℚ :=
  match parseGpus (gpuField j) with
  | .ok g => g
  | .error _ => 0

/-- Exact (unrounded) GPU total of user `u` over a job list. -/
def totalOf (jobs : List Job) (u : String) : ℚ :=
  ((jobs.filter (sameUser u)).map contribOf).sum

/-- Number of jobs of user `u` in a job list. -/
def countOf (jobs : List Job) (u : String) : ℕ :=
  jobs.countP (sameUser u)

/-- Lookup in the accumulator (first entry with the given key). -/
def lookupAcc (u : String) : Acc → Option (ℚ × ℕ)
  | [] => none
  | e :: rest => if e.1 = u then some e.2 else lookupAcc u rest

/-- The exception-free part of the `consolidate_jobs` loop, as a fold. -/
def pureCons (acc : Acc) (jobs : List Job) : Acc :=
  jobs.foldl (fun a j => updateAcc a (userOf j) (contribOf j)) acc

/-- The distinct users of a job list in first-seen order. -/
def seenUsers (jobs : List Job) : List String :=
  jobs.foldl (fun l j => if userOf j ∈ l then l else l ++ [userOf j]) []

/-! ### Process model of `main`, `login` and `get_job_information` -/

/-- The JSON document returned by the jobs endpoint: either a bare list
of job records, or an object whose optional `jobs` field holds that
list (`hasOtherKeys` records whether the object has any further keys,
which only matters for Python truthiness of an object without `jobs`). -/
inductive ApiJson where
  | jlist (jobs : List Job)
  | jdict (jobsField : Option (List Job)) (hasOtherKeys : Bool)
deriving DecidableEq

/-- Python truthiness of the decoded response (`if result:`): a list is
truthy iff nonempty, a dict iff it has at least one key. -/
def truthy : ApiJson → Bool
  | .jlist l => !l.isEmpty
  | .jdict f o => f.isSome || o

/-- `jobs = result if isinstance(result, list) else result.get('jobs', [])`. -/
def jobsOf : ApiJson → List Job
  | .jlist l => l
  | .jdict f _ => f.getD []

/-- The token endpoint's response, as seen by `login`: HTTP status,
response body text, and the `access_token` the body carries (the last
is only read on the 2xx path and is abstracted as already parsed). -/
structure LoginResp where
  status : ℕ
  body : String
  accessToken : String
deriving DecidableEq

/-- The jobs endpoint's behaviour, as seen by `get_job_information`:
`exn` covers both a network error and a non-2xx status (via
`raise_for_status`), i.e. any `requests.exceptions.RequestException`;
`ok` carries the decoded JSON of a 2xx response. -/
inductive FetchResp where
  | exn
  | ok (json : ApiJson)
deriving DecidableEq

/-- Observable outcome of one process run: exit code, printed
diagnostic lines (file-path messages are abstracted away), and whether
the CSV / HTML outputs were written. -/
structure Outcome where
  exitCode : ℕ
  output : List String
  csvWritten : Bool
  htmlWritten : Bool
deriving DecidableEq

/-- `login()`: on `r.status_code // 100 == 2` return the access token,
otherwise print `"Login error: " + r.text` and `exit(1)`. The `error`
branch is the whole-process outcome of that `exit(1)`. -/
def loginRun (r : LoginResp) : Except Outcome String :=
  if r.status / 100 = 2 then .ok r.accessToken
  else .error ⟨1, ["Login error: " ++ r.body], false, false⟩

/-- `get_job_information(token, cluster_id)`: prints `"200"` and
returns the decoded JSON on success; on a `RequestException` prints
`"Script is not working"` and returns `None`. Returns the printed
lines together with the optional result. -/
def getJobInformation : FetchResp → List String × Option ApiJson
  | .exn => (["Script is not working"], none)
  | .ok j => (["200"], some j)

/-- `main()` after argument parsing, as a function of the two HTTP
interactions. An uncaught exception from `consolidate_jobs` terminates
the process with exit code 1 (modelled message `"Traceback"`); the
successful path writes both output files. -/
def mainRun (lr : LoginResp) (fr : FetchResp) : Outcome :=
  match loginRun lr with
  | .error o => o
  | .ok _ =>
    let fetched := getJobInformation fr
    match fetched.2 with
    | none => ⟨0, fetched.1 ++ ["Script is not working"], false, false⟩
    | some j =>
      if truthy j then
        if (jobsOf j).isEmpty then
          ⟨0, fetched.1 ++ ["No jobs found in the API response."], false, false⟩
        else
          match consolidate_jobs (jobsOf j) with
          | .error _ => ⟨1, fetched.1 ++ ["Traceback"], false, false⟩
          | .ok _ => ⟨0, fetched.1 ++ ["Consolidated Jobs:", "Script is working"], true, true⟩
      else ⟨0, fetched.1 ++ ["Script is not working"], false, false⟩

/-! ### Lemmas about the accumulator -/

theorem pureCons_nil (acc : Acc) : pureCons acc [] = acc := rfl

theorem pureCons_cons (acc : Acc) (j : Job) (rest : List Job) :
    pureCons acc (j :: rest) = pureCons (updateAcc acc (userOf j) (contribOf j)) rest := rfl

theorem lookupAcc_updateAcc_self (acc : Acc) (u : String) (g : ℚ) :
    lookupAcc u (updateAcc acc u g) =
      some ((lookupAcc u acc).elim (g, 1) (fun sc => (sc.1 + g, sc.2 + 1))) := by
  induction acc with
  | nil => simp [updateAcc, lookupAcc]
  | cons e rest ih =>
    by_cases h : e.1 = u
    · simp [updateAcc, lookupAcc, h]
    · simp [updateAcc, lookupAcc, h, ih]

theorem lookupAcc_updateAcc_ne (acc : Acc) (u v : String) (g : ℚ) (h : v ≠ u) :
    lookupAcc u (updateAcc acc v g) = lookupAcc u acc := by
  induction acc with
  | nil => simp [updateAcc, lookupAcc, h]
  | cons e rest ih =>
    by_cases he : e.1 = v
    · simp [updateAcc, lookupAcc, he, h]
    · simp [updateAcc, lookupAcc, he, ih]

theorem map_fst_updateAcc (acc : Acc) (u : String) (g : ℚ) :
    (updateAcc acc u g).map Prod.fst =
      if u ∈ acc.map Prod.fst then acc.map Prod.fst else acc.map Prod.fst ++ [u] := by
  induction acc with
  | nil => simp [updateAcc]
  | cons e rest ih =>
    by_cases h : e.1 = u
    · simp [updateAcc, h]
    · by_cases hm : u ∈ rest.map Prod.fst <;>
        simp [updateAcc, h, ih, hm, Ne.symm h]

theorem nodup_map_fst_updateAcc (acc : Acc) (u : String) (g : ℚ)
    (h : (acc.map Prod.fst).Nodup) : ((updateAcc acc u g).map Prod.fst).Nodup := by
  by_cases hm : u ∈ acc.map Prod.fst
  · simpa [map_fst_updateAcc, hm] using h
  · rw [map_fst_updateAcc, if_neg hm]
    simp [List.nodup_append, h, hm]

theorem mem_iff_lookupAcc (acc : Acc) (e : String × ℚ × ℕ)
    (hnd : (acc.map Prod.fst).Nodup) :
    e ∈ acc ↔ lookupAcc e.1 acc = some e.2 := by
  induction acc with
  | nil => simp [lookupAcc]
  | cons a rest ih =>
    rw [List.map_cons, List.nodup_cons] at hnd
    by_cases h : a.1 = e.1
    · rw [lookupAcc, if_pos h]
      constructor
      · intro hmem
        rcases List.mem_cons.1 hmem with rfl | hmem
        · rfl
        · exact absurd (by rw [h]; exact List.mem_map_of_mem Prod.fst hmem) hnd.1
      · intro hsome
        have : a = e := Prod.ext h (Option.some.inj hsome)
        exact this ▸ List.mem_cons_self a rest
    · rw [lookupAcc, if_neg h, List.mem_cons, ih hnd.2]
      constructor
      · rintro (rfl | hl)
        · exact absurd rfl h
        · exact hl
      · exact Or.inr

theorem lookupAcc_isSome_iff (acc : Acc) (u : String) :
    (lookupAcc u acc).isSome = true ↔ u ∈ acc.map Prod.fst := by
  induction acc with
  | nil => simp [lookupAcc]
  | cons e rest ih =>
    by_cases h : e.1 = u
    · simp [lookupAcc, h]
    · simp [lookupAcc, h, ih, Ne.symm h]

theorem totalOf_nil (u : String) : totalOf [] u = 0 := rfl

theorem countOf_nil (u : String) : countOf [] u = 0 := rfl

theorem totalOf_cons (j : Job) (rest : List Job) (u : String) :
    totalOf (j :: rest) u =
      (if userOf j = u then contribOf j else 0) + totalOf rest u := by
  by_cases h : userOf j = u <;>
    simp [totalOf, sameUser, List.filter_cons, h]

theorem countOf_cons (j : Job) (rest : List Job) (u : String) :
    countOf (j :: rest) u = countOf rest u + (if userOf j = u then 1 else 0) := by
  by_cases h : userOf j = u <;>
    simp [countOf, sameUser, List.countP_cons, h]

theorem lookupAcc_pureCons (jobs : List Job) : ∀ (acc : Acc) (u : String),
    lookupAcc u (pureCons acc jobs) =
      (lookupAcc u acc).elim
        (if countOf jobs u = 0 then none
         else some (totalOf jobs u, countOf jobs u))
        (fun sc => some (sc.1 + totalOf jobs u, sc.2 + countOf jobs u)) := by
  induction jobs with
  | nil =>
    intro acc u
    cases h : lookupAcc u acc <;> simp [pureCons_nil, totalOf_nil, countOf_nil, h]
  | cons j rest ih =>
    intro acc u
    rw [pureCons_cons, ih, totalOf_cons, countOf_cons]
    by_cases hj : userOf j = u
    · rw [hj, lookupAcc_updateAcc_self]
      cases h : lookupAcc u acc with
      | none =>
        have hc : ¬(countOf rest u + 1 = 0) := by omega
        simp only [h, Option.elim_none, Option.elim_some, if_pos rfl, if_neg hc]
        refine congrArg some (Prod.ext ?_ ?_)
        · simp
        · simp; omega
      | some sc =>
        simp only [h, Option.elim_some, if_pos rfl]
        refine congrArg some (Prod.ext ?_ ?_)
        · simp; ring
        · simp; omega
    · rw [lookupAcc_updateAcc_ne _ _ _ _ hj]
      cases h : lookupAcc u acc <;> simp [h, hj]

theorem nodup_map_fst_pureCons (jobs : List Job) : ∀ acc : Acc,
    (acc.map Prod.fst).Nodup → ((pureCons acc jobs).map Prod.fst).Nodup := by
  induction jobs with
  | nil => intro acc h; simpa [pureCons_nil] using h
  | cons j rest ih =>
    intro acc h
    rw [pureCons_cons]
    exact ih _ (nodup_map_fst_updateAcc _ _ _ h)

theorem mem_pureCons_iff (jobs : List Job) (e : String × ℚ × ℕ) :
    e ∈ pureCons [] jobs ↔
      countOf jobs e.1 ≠ 0 ∧ e.2 = (totalOf jobs e.1, countOf jobs e.1) := by
  rw [mem_iff_lookupAcc _ _ (nodup_map_fst_pureCons jobs [] (by simp)),
    lookupAcc_pureCons]
  by_cases h : countOf jobs e.1 = 0
  · simp [lookupAcc, h]
  · simp [lookupAcc, h, eq_comm]

/-! ### Lemmas about `parseGpus` and `consolidateAux` -/

theorem parseGpus_jstr (s : String) :
    parseGpus (.jstr s) = .ok ((pyParseFloat s).getD 0) := by
  cases h : pyParseFloat s <;> simp [parseGpus, pyFloat, h]

theorem parseGpus_ok_of_floatable (v : JVal) (h : floatable v = true) :
    ∃ g, parseGpus v = .ok g := by
  cases v with
  | jstr s => exact ⟨_, parseGpus_jstr s⟩
  | jnum q => exact ⟨q, rfl⟩
  | jbool b => exact ⟨_, rfl⟩
  | jnull => simp [floatable] at h
  | jarr => simp [floatable] at h
  | jobj => simp [floatable] at h

theorem contribOf_of_parseGpus {j : Job} {g : ℚ}
    (h : parseGpus (gpuField j) = .ok g) : contribOf j = g := by
  simp [contribOf, h]

theorem consolidateAux_ok_eq (jobs : List Job) : ∀ acc acc' : Acc,
    consolidateAux acc jobs = .ok acc' → acc' = pureCons acc jobs := by
  induction jobs with
  | nil =>
    intro acc acc' h
    simp [consolidateAux] at h
    rw [pureCons_nil, h]
  | cons j rest ih =>
    intro acc acc' h
    cases hp : parseGpus (gpuField j) with
    | error e => simp [consolidateAux, hp] at h
    | ok g =>
      simp only [consolidateAux, hp] at h
      rw [pureCons_cons, contribOf_of_parseGpus hp]
      exact ih _ _ h

theorem consolidateAux_isOk (jobs : List Job)
    (hf : ∀ j ∈ jobs, floatable (gpuField j) = true) :
    ∀ acc : Acc, consolidateAux acc jobs = .ok (pureCons acc jobs) := by
  induction jobs with
  | nil => intro acc; simp [consolidateAux, pureCons_nil]
  | cons j rest ih =>
    intro acc
    obtain ⟨g, hg⟩ := parseGpus_ok_of_floatable _ (hf j (List.mem_cons_self j rest))
    simp only [consolidateAux, hg]
    rw [pureCons_cons, contribOf_of_parseGpus hg]
    exact ih (fun x hx => hf x (List.mem_cons_of_mem j hx)) _

theorem consolidate_ok_rows {jobs : List Job} {rows : List Row}
    (h : consolidate_jobs jobs = .ok rows) :
    rows = (pureCons [] jobs).map toRow := by
  unfold consolidate_jobs at h
  cases haux : consolidateAux [] jobs with
  | error e => rw [haux] at h; simp [Except.map] at h
  | ok acc =>
    rw [haux] at h
    simp only [Except.map] at h
    rw [consolidateAux_ok_eq _ _ _ haux] at h
    exact (Except.ok.inj h).symm

theorem mem_rows_iff {jobs : List Job} {rows : List Row}
    (h : consolidate_jobs jobs = .ok rows) (r : Row) :
    r ∈ rows ↔
      countOf jobs r.user ≠ 0 ∧
      r.totalRequestedGPUs = round2 (totalOf jobs r.user) ∧
      r.jobCount = countOf jobs r.user := by
  rw [consolidate_ok_rows h, List.mem_map]
  constructor
  · rintro ⟨e, he, rfl⟩
    obtain ⟨h1, h2⟩ := (mem_pureCons_iff jobs e).1 he
    rw [Prod.ext_iff] at h2
    exact ⟨h1, by simp [toRow, h2.1], by simp [toRow, h2.2]⟩
  · rintro ⟨h1, h2, h3⟩
    refine ⟨(r.user, totalOf jobs r.user, countOf jobs r.user),
      (mem_pureCons_iff jobs _).2 ⟨h1, rfl⟩, ?_⟩
    cases r
    simp only [toRow] at *
    rw [h2, h3]

/-! ### Rounding lemmas -/

theorem rndHalfEven_nonneg (q : ℚ) (h : 0 ≤ q) : 0 ≤ rndHalfEven q := by
  have hf : (0 : ℤ) ≤ ⌊q⌋ := Int.floor_nonneg.2 h
  unfold rndHalfEven
  split
  · exact hf
  · split
    · omega
    · split <;> omega

theorem round2_nonneg (q : ℚ) (h : 0 ≤ q) : 0 ≤ round2 q := by
  unfold round2
  have : (0 : ℤ) ≤ rndHalfEven (100 * q) := rndHalfEven_nonneg _ (by positivity)
  positivity

theorem round2_hundredth (q : ℚ) : ∃ n : ℤ, round2 q = (n : ℚ) / 100 :=
  ⟨rndHalfEven (100 * q), rfl⟩

/-! ### Counting and ordering lemmas -/

theorem sum_counts_updateAcc (acc : Acc) (u : String) (g : ℚ) :
    ((updateAcc acc u g).map (fun e => e.2.2)).sum =
      (acc.map (fun e => e.2.2)).sum + 1 := by
  induction acc with
  | nil => simp [updateAcc]
  | cons e rest ih =>
    by_cases h : e.1 = u
    · simp [updateAcc, h]; omega
    · simp [updateAcc, h, ih]; omega

theorem sum_counts_pureCons (jobs : List Job) : ∀ acc : Acc,
    ((pureCons acc jobs).map (fun e => e.2.2)).sum =
      (acc.map (fun e => e.2.2)).sum + jobs.length := by
  induction jobs with
  | nil => intro acc; simp [pureCons_nil]
  | cons j rest ih =>
    intro acc
    rw [pureCons_cons, ih, sum_counts_updateAcc]
    simp; omega

theorem map_fst_pureCons (jobs : List Job) : ∀ acc : Acc,
    (pureCons acc jobs).map Prod.fst =
      jobs.foldl (fun l j => if userOf j ∈ l then l else l ++ [userOf j])
        (acc.map Prod.fst) := by
  induction jobs with
  | nil => intro acc; simp [pureCons_nil]
  | cons j rest ih =>
    intro acc
    rw [pureCons_cons, ih, map_fst_updateAcc, List.foldl_cons]

theorem entry_pos_pureCons (jobs : List Job) : ∀ acc : Acc,
    (∀ e ∈ acc, 1 ≤ e.2.2) → ∀ e ∈ pureCons acc jobs, 1 ≤ e.2.2 := by
  induction jobs with
  | nil => intro acc h; simpa [pureCons_nil] using h
  | cons j rest ih =>
    intro acc h
    rw [pureCons_cons]
    refine ih _ ?_
    intro e he
    clear ih
    induction acc with
    | nil =>
      simp [updateAcc] at he
      simp [he]
    | cons a tail iha =>
      by_cases ha : a.1 = userOf j
      · rw [updateAcc, if_pos ha] at he
        rcases List.mem_cons.1 he with rfl | he
        · simp
        · exact h e (List.mem_cons_of_mem a he)
      · rw [updateAcc, if_neg ha] at he
        rcases List.mem_cons.1 he with rfl | he
        · exact h e (List.mem_cons_self e tail)
        · exact iha (fun x hx => h x (List.mem_cons_of_mem a hx)) he

/-! ### The claims -/

/-- Claim C1: for user A with jobs whose `totalRequestedGPUs` are the
strings `"1"` and `"1.5"` and user B with one job `"3"`,
`consolidate_jobs` returns exactly the two rows
A → (2.5, 2) and B → (3.0, 1). -/
theorem claim_C1 :
    consolidate_jobs
      [⟨some "A", some (.jstr "1")⟩, ⟨some "A", some (.jstr "1.5")⟩,
       ⟨some "B", some (.jstr "3")⟩] =
    .ok [⟨"A", 2.5, 2⟩, ⟨"B", 3.0, 1⟩] := by decide

/-- Claim C2, counterexample: `consolidate_jobs` does raise for some
input value of `totalRequestedGPUs`: a JSON `null` makes `float(None)`
raise a `TypeError`, which the `except ValueError` handler does not
catch, so the call fails. -/
theorem claim_C2_cex :
    consolidate_jobs [⟨some "A", some .jnull⟩] = .error .typeError := by decide

/-- Claim C2, amended: a malformed string value of `totalRequestedGPUs`
contributes `0.0` (the job is processed exactly as if its value were the
number `0`), and `consolidate_jobs` never raises as long as every
present `totalRequestedGPUs` value is a string, a number, or a boolean;
it does raise (`TypeError`) on a `null`, array, or object value. -/
theorem claim_C2_amended :
    (∀ jobs : List Job, (∀ j ∈ jobs, floatable (gpuField j) = true) →
      (consolidate_jobs jobs).isOk = true) ∧
    (∀ (u : Option String) (s : String) (rest : List Job),
      pyParseFloat s = none →
      consolidate_jobs (⟨u, some (.jstr s)⟩ :: rest) =
        consolidate_jobs (⟨u, some (.jnum 0)⟩ :: rest)) := by
  constructor
  · intro jobs hf
    rw [consolidate_jobs, consolidateAux_isOk jobs hf]
    rfl
  · intro u s rest hs
    simp [consolidate_jobs, consolidateAux, gpuField, parseGpus_jstr, hs,
      parseGpus, pyFloat, userOf]

/-- Witness for the amended claim C2 at a concrete malformed string. -/
theorem claim_C2_witness :
    (consolidate_jobs [⟨some "A", some (.jstr "abc")⟩]).isOk = true ∧
    consolidate_jobs [⟨some "A", some (.jstr "abc")⟩] =
      consolidate_jobs [⟨some "A", some (.jnum 0)⟩] :=
  ⟨claim_C2_amended.1 [⟨some "A", some (.jstr "abc")⟩] (by decide),
   claim_C2_amended.2 (some "A") "abc" [] (by decide)⟩

/-- Claim C3, counterexample: when the jobs endpoint returns a bare
empty list, the fetched job list is empty but the program does NOT
print "No jobs found in the API response." — the empty list is falsy,
so `main` takes the `else` branch and prints "Script is not working". -/
theorem claim_C3_cex :
    jobsOf (.jlist []) = [] ∧
    "No jobs found in the API response." ∉
      (mainRun ⟨200, "", "tok"⟩ (.ok (.jlist []))).output := by decide

/-- Claim C3, amended: whenever the fetch succeeds and the fetched job
list is empty, the program exits with code 0 and writes neither CSV nor
HTML; it prints "No jobs found in the API response." exactly when the
decoded response is truthy (e.g. an object carrying an empty `jobs`
list), and otherwise (a bare empty list or an empty object) prints
"Script is not working". -/
theorem claim_C3_amended (lr : LoginResp) (j : ApiJson)
    (hs : lr.status / 100 = 2) (hj : jobsOf j = []) :
    (mainRun lr (.ok j)).exitCode = 0 ∧
    (mainRun lr (.ok j)).csvWritten = false ∧
    (mainRun lr (.ok j)).htmlWritten = false ∧
    (if truthy j then
        "No jobs found in the API response." ∈ (mainRun lr (.ok j)).output
      else "Script is not working" ∈ (mainRun lr (.ok j)).output) := by
  by_cases t : truthy j <;>
    simp [mainRun, loginRun, hs, getJobInformation, t, hj]

/-- Witness for the amended claim C3: an object response with an empty
`jobs` list. -/
theorem claim_C3_witness :
    (mainRun ⟨200, "x", "t"⟩ (.ok (.jdict (some []) false))).exitCode = 0 ∧
    (mainRun ⟨200, "x", "t"⟩ (.ok (.jdict (some []) false))).csvWritten = false ∧
    (mainRun ⟨200, "x", "t"⟩ (.ok (.jdict (some []) false))).htmlWritten = false ∧
    (if truthy (.jdict (some []) false) then
        "No jobs found in the API response." ∈
          (mainRun ⟨200, "x", "t"⟩ (.ok (.jdict (some []) false))).output
      else "Script is not working" ∈
          (mainRun ⟨200, "x", "t"⟩ (.ok (.jdict (some []) false))).output) :=
  claim_C3_amended ⟨200, "x", "t"⟩ (.jdict (some []) false) (by decide) (by decide)

/-- Claim C4: a non-2xx response from the token endpoint makes `login`
print the response body and terminate the process with exit code 1,
before any fetch or file write happens. -/
theorem claim_C4 (lr : LoginResp) (fr : FetchResp) (h : lr.status / 100 ≠ 2) :
    mainRun lr fr = ⟨1, ["Login error: " ++ lr.body], false, false⟩ := by
  simp [mainRun, loginRun, h]

/-- Witness for claim C4 at HTTP status 401. -/
theorem claim_C4_witness :
    mainRun ⟨401, "unauthorized", "t"⟩ .exn =
      ⟨1, ["Login error: " ++ "unauthorized"], false, false⟩ :=
  claim_C4 ⟨401, "unauthorized", "t"⟩ .exn (by decide)

/-- Claim C5: a failing jobs request (network error or non-2xx, i.e. a
`RequestException`) makes `get_job_information` print a failure message
and return `None` instead of raising, after which `main` prints a
message and exits with code 0, writing no output files. -/
theorem claim_C5 (lr : LoginResp) (h : lr.status / 100 = 2) :
    getJobInformation .exn = (["Script is not working"], none) ∧
    (mainRun lr .exn).exitCode = 0 ∧
    (mainRun lr .exn).csvWritten = false ∧
    (mainRun lr .exn).htmlWritten = false ∧
    "Script is not working" ∈ (mainRun lr .exn).output := by
  refine ⟨rfl, ?_, ?_, ?_, ?_⟩ <;>
    simp [mainRun, loginRun, h, getJobInformation]

/-- Witness for claim C5 with a successful login. -/
theorem claim_C5_witness :
    getJobInformation .exn = (["Script is not working"], none) ∧
    (mainRun ⟨200, "", "t"⟩ .exn).exitCode = 0 ∧
    (mainRun ⟨200, "", "t"⟩ .exn).csvWritten = false ∧
    (mainRun ⟨200, "", "t"⟩ .exn).htmlWritten = false ∧
    "Script is not working" ∈ (mainRun ⟨200, "", "t"⟩ .exn).output :=
  claim_C5 ⟨200, "", "t"⟩ (by decide)

/-- Claim C6, counterexample: a `totalRequestedGPUs` string that parses
to a negative number yields a row whose `totalRequestedGPUs` is
negative, so the "non-negative float" part of the claim fails. -/
theorem claim_C6_cex :
    consolidate_jobs [⟨some "A", some (.jstr "-1")⟩] =
      .ok [⟨"A", -1, 1⟩] ∧ ¬ (0 ≤ (-1 : ℚ)) := by decide

/-- Claim C6, amended: every row of `consolidate_jobs` has
`totalRequestedGPUs` rounded to 2 decimal places (an integer multiple
of 1/100) and `jobCount` a positive integer; `totalRequestedGPUs` is
moreover non-negative whenever every job's GPU value contributes a
non-negative amount (the claim's unconditional non-negativity fails on
negative input values). -/
theorem claim_C6_amended (jobs : List Job) (rows : List Row)
    (h : consolidate_jobs jobs = .ok rows) :
    (∀ r ∈ rows,
      (∃ n : ℤ, r.totalRequestedGPUs = (n : ℚ) / 100) ∧ 1 ≤ r.jobCount) ∧
    ((∀ j ∈ jobs, 0 ≤ contribOf j) → ∀ r ∈ rows, 0 ≤ r.totalRequestedGPUs) := by
  constructor
  · intro r hr
    obtain ⟨h1, h2, h3⟩ := (mem_rows_iff h r).1 hr
    obtain ⟨n, hn⟩ := round2_hundredth (totalOf jobs r.user)
    exact ⟨⟨n, by rw [h2, hn]⟩, by omega⟩
  · intro hnn r hr
    obtain ⟨h1, h2, h3⟩ := (mem_rows_iff h r).1 hr
    rw [h2]
    refine round2_nonneg _ (List.sum_nonneg ?_)
    intro x hx
    obtain ⟨j, hj, rfl⟩ := List.mem_map.1 hx
    exact hnn j (List.mem_of_mem_filter hj)

/-- Witness for the amended claim C6 at a one-job list. -/
theorem claim_C6_witness :
    (∀ r ∈ [(⟨"A", 1, 1⟩ : Row)],
      (∃ n : ℤ, r.totalRequestedGPUs = (n : ℚ) / 100) ∧ 1 ≤ r.jobCount) ∧
    ((∀ j ∈ [(⟨some "A", some (.jstr "1")⟩ : Job)], 0 ≤ contribOf j) →
      ∀ r ∈ [(⟨"A", 1, 1⟩ : Row)], 0 ≤ r.totalRequestedGPUs) :=
  claim_C6_amended [⟨some "A", some (.jstr "1")⟩] [⟨"A", 1, 1⟩] (by decide)

/-- Claim C7: aggregation is order-independent with respect to the
per-user totals: on any two permutations of the same job list on which
`consolidate_jobs` succeeds, the output row multisets agree (each
user's rounded GPU sum and job count are unchanged); only the row
order may differ. -/
theorem claim_C7 (jobs jobs' : List Job) (rows rows' : List Row)
    (hp : jobs.Perm jobs')
    (h : consolidate_jobs jobs = .ok rows)
    (h' : consolidate_jobs jobs' = .ok rows') :
    ∀ r : Row, r ∈ rows ↔ r ∈ rows' := by
  intro r
  rw [mem_rows_iff h r, mem_rows_iff h' r]
  have hc : countOf jobs r.user = countOf jobs' r.user :=
    hp.countP_eq (sameUser r.user)
  have ht : totalOf jobs r.user = totalOf jobs' r.user :=
    ((hp.filter (sameUser r.user)).map contribOf).sum_eq
  rw [hc, ht]

/-- Witness for claim C7: swapping a two-job list permutes the rows but
leaves the per-user rows the same. -/
theorem claim_C7_witness :
    (⟨"A", 1, 1⟩ : Row) ∈ [(⟨"A", 1, 1⟩ : Row), ⟨"B", 5/2, 1⟩] ↔
      (⟨"A", 1, 1⟩ : Row) ∈ [(⟨"B", 5/2, 1⟩ : Row), ⟨"A", 1, 1⟩] :=
  claim_C7
    [⟨some "A", some (.jstr "1")⟩, ⟨some "B", some (.jstr "2.5")⟩]
    [⟨some "B", some (.jstr "2.5")⟩, ⟨some "A", some (.jstr "1")⟩]
    [⟨"A", 1, 1⟩, ⟨"B", 5/2, 1⟩] [⟨"B", 5/2, 1⟩, ⟨"A", 1, 1⟩]
    (List.Perm.swap _ _ _) (by decide) (by decide) ⟨"A", 1, 1⟩

/-- Claim C8: a job record lacking the `user` field is aggregated
exactly as the same record with user "Unknown". -/
theorem claim_C8 (j : Job) (rest : List Job) (h : j.user = none) :
    consolidate_jobs (j :: rest) =
      consolidate_jobs (⟨some "Unknown", j.totalRequestedGPUs⟩ :: rest) := by
  simp [consolidate_jobs, consolidateAux, userOf, gpuField, h]

/-- Witness for claim C8 at a concrete user-less job. -/
theorem claim_C8_witness :
    consolidate_jobs [⟨none, some (.jstr "2")⟩] =
      consolidate_jobs [⟨some "Unknown", some (.jstr "2")⟩] :=
  claim_C8 ⟨none, some (.jstr "2")⟩ [] rfl

/-- Claim C9: aggregation is deterministic — `consolidate_jobs` is a
pure function of the input job list, so two runs on the same list give
identical outputs, row order included. -/
theorem claim_C9 (jobs : List Job) (rows rows' : List Row)
    (h : consolidate_jobs jobs = .ok rows)
    (h' : consolidate_jobs jobs = .ok rows') :
    rows = rows' := by
  rw [h] at h'
  exact Except.ok.inj h'

/-- Witness for claim C9 at a concrete one-job list. -/
theorem claim_C9_witness : [(⟨"A", 1, 1⟩ : Row)] = [(⟨"A", 1, 1⟩ : Row)] :=
  claim_C9 [⟨some "A", some (.jstr "1")⟩] [⟨"A", 1, 1⟩] [⟨"A", 1, 1⟩]
    (by decide) (by decide)

/-- Claim C10: on success the output of `consolidate_jobs` has one row
per distinct user in first-seen order, the row counts sum to the length
of the input, and every row counts at least one job. -/
theorem claim_C10 (jobs : List Job) (rows : List Row)
    (h : consolidate_jobs jobs = .ok rows) :
    rows.map Row.user = seenUsers jobs ∧
    (rows.map Row.user).Nodup ∧
    (∀ u, u ∈ rows.map Row.user ↔ ∃ j ∈ jobs, userOf j = u) ∧
    (rows.map Row.jobCount).sum = jobs.length ∧
    ∀ r ∈ rows, 1 ≤ r.jobCount := by
  have hrows := consolidate_ok_rows h
  have huser : rows.map Row.user = (pureCons [] jobs).map Prod.fst := by
    rw [hrows, List.map_map]
    rfl
  have hcount : ∀ u, countOf jobs u ≠ 0 ↔ ∃ j ∈ jobs, userOf j = u := by
    intro u
    rw [countOf, Ne, List.countP_eq_zero]
    simp [sameUser]
  refine ⟨?_, ?_, ?_, ?_, ?_⟩
  · rw [huser, map_fst_pureCons]
    rfl
  · rw [huser]
    exact nodup_map_fst_pureCons jobs [] (by simp)
  · intro u
    rw [huser, ← lookupAcc_isSome_iff, lookupAcc_pureCons, ← hcount u]
    by_cases hc : countOf jobs u = 0 <;> simp [lookupAcc, hc]
  · rw [hrows, List.map_map]
    have : (Row.jobCount ∘ toRow) = fun e : String × ℚ × ℕ => e.2.2 := rfl
    rw [this, sum_counts_pureCons jobs []]
    simp
  · intro r hr
    rw [hrows] at hr
    obtain ⟨e, he, rfl⟩ := List.mem_map.1 hr
    exact entry_pos_pureCons jobs [] (by simp) e he

/-- Witness for claim C10 at a three-job list with two users. -/
theorem claim_C10_witness :
    ([(⟨"A", 4, 2⟩ : Row), ⟨"B", 2, 1⟩].map Row.user =
      seenUsers [⟨some "A", some (.jstr "1")⟩, ⟨some "B", some (.jstr "2")⟩,
        ⟨some "A", some (.jstr "3")⟩]) ∧
    ([(⟨"A", 4, 2⟩ : Row), ⟨"B", 2, 1⟩].map Row.user).Nodup ∧
    (∀ u, u ∈ [(⟨"A", 4, 2⟩ : Row), ⟨"B", 2, 1⟩].map Row.user ↔
      ∃ j ∈ [(⟨some "A", some (.jstr "1")⟩ : Job), ⟨some "B", some (.jstr "2")⟩,
        ⟨some "A", some (.jstr "3")⟩], userOf j = u) ∧
    ([(⟨"A", 4, 2⟩ : Row), ⟨"B", 2, 1⟩].map Row.jobCount).sum =
      [(⟨some "A", some (.jstr "1")⟩ : Job), ⟨some "B", some (.jstr "2")⟩,
        ⟨some "A", some (.jstr "3")⟩].length ∧
    ∀ r ∈ [(⟨"A", 4, 2⟩ : Row), ⟨"B", 2, 1⟩], 1 ≤ r.jobCount :=
  claim_C10
    [⟨some "A", some (.jstr "1")⟩, ⟨some "B", some (.jstr "2")⟩,
      ⟨some "A", some (.jstr "3")⟩]
    [⟨"A", 4, 2⟩, ⟨"B", 2, 1⟩] (by decide)

end GpuCount
